import Mathlib

/-!
Verification development for the iac-translator core: a shallow embedding of
the resource/property mapping engine (src/core/mapping.ts), the plugin
registry (src/core/registry.ts) with the plugin shape guards
(src/core/plugin.ts), and the translation orchestration (modelled from the
spec where noted).  JavaScript objects are embedded as insertion-ordered
association lists, matching JS object/Map key semantics; machine-level
details that the claims never touch (prototype chains, boxed primitives,
sparse arrays, the 2^32 array-index bound, non-ASCII case mapping) are
called out in comments where they are simplified away.
-/

namespace IaC

/-- Association-list lookup with JS object / Map `get` semantics. -/
def assocGet {κ α : Type} [DecidableEq κ] : List (κ × α) → κ → Option α
  | [], _ => none
  | (k2, v2) :: rest, k => if k2 = k then some v2 else assocGet rest k

/-- Association-list update with JS object / Map `set` semantics: an existing
key keeps its position and gets the new value, a new key is appended. -/
def assocSet {κ α : Type} [DecidableEq κ] : List (κ × α) → κ → α → List (κ × α)
  | [], k, v => [(k, v)]
  | (k2, v2) :: rest, k, v =>
    if k2 = k then (k2, v) :: rest else (k2, v2) :: assocSet rest k v

/-- Association-list removal with JS `delete` semantics: the key is removed,
the order of the remaining entries is preserved. -/
def assocDelete {κ α : Type} [DecidableEq κ] : List (κ × α) → κ → List (κ × α)
  | [], _ => []
  | (k2, v2) :: rest, k =>
    if k2 = k then rest else (k2, v2) :: assocDelete rest k

/-- Helper for `jsSplitDot`: splits a character list at every dot, carrying
the (reversed) characters of the current segment. -/
def splitDots : List Char → List Char → List String
  | [], acc => [String.mk acc.reverse]
  | c :: rest, acc =>
    if c = '.' then String.mk acc.reverse :: splitDots rest []
    else splitDots rest (c :: acc)

/-- Embedding of JavaScript `path.split('.')` as used by the nested-path
helpers of ResourceTypeMapper: never returns an empty list, keeps empty
segments ("" splits to [""], "a..b" to ["a", "", "b"]). -/
def jsSplitDot (s : String) : List String := splitDots s.data []

/-- Embedding of JavaScript `toLowerCase()` restricted to ASCII case mapping
(the language names exercised by the repository are ASCII). -/
def jsLower (s : String) : String := String.mk (s.data.map Char.toLower)

/-- True when the string is a canonical JS array index ("0", "1", "42", no
leading zeros).  The 2^32 - 1 upper bound of real JS indices is not
modelled. -/
def isCanonicalIndex : List Char → Bool
  | [] => false
  | ['0'] => true
  | c :: rest => c.isDigit && c != '0' && rest.all Char.isDigit

/-- Numeric value of a digit string (accumulator form). -/
def charsToNat : List Char → Nat → Nat
  | [], n => n
  | c :: r, n => charsToNat r (n * 10 + (c.toNat - 48))

/-- Parses a property key as a JS array index, `none` for named keys. -/
def arrIndex (s : String) : Option Nat :=
  if isCanonicalIndex s.data then some (charsToNat s.data 0) else none

/-- Embedding of the `IRValue` type of src/core/ir.ts at JS runtime: scalar
string/number/boolean, plain objects (which also covers `IRExpression`,
structurally an object with `exprType` and `value` fields), and arrays.
Arrays carry their elements plus the extra named properties JS allows on
array objects (needed because `setNestedValue` can write a named property
onto an array found at an intermediate path segment).  Numbers are modelled
as integers; no claim performs arithmetic on them. -/
inductive JSValue where
  | str (s : String)
  | num (n : Int)
  | bool (b : Bool)
  | obj (fields : List (String × JSValue))
  | arr (elems : List JSValue) (props : List (String × JSValue))

/-- A JS property record, i.e. the runtime shape of
`Record<string, IRValue>`. -/
abbrev JFields := List (String × JSValue)

/-- Embedding of JS property read `v[k]` on data properties.
Prototype-inherited properties and boxed-primitive properties are not
modelled: reading any key off a scalar yields `undefined` (`none`). -/
def jsGetProp : JSValue → String → Option JSValue
  | .obj fields, k => assocGet fields k
  | .arr elems props, k =>
    match arrIndex k with
    | some i => elems.get? i
    | none =>
      if k = "length" then some (.num (Int.ofNat elems.length))
      else assocGet props k
  | _, _ => none

/-- Embedding of JS property write `v[k] = x`.  Writes to scalars are
dropped (JS silently ignores them for primitives), out-of-range index
writes and `length` writes on arrays are not modelled (no claim or witness
exercises them). -/
def jsSetProp : JSValue → String → JSValue → JSValue
  | .obj fields, k, v => .obj (assocSet fields k v)
  | .arr elems props, k, v =>
    match arrIndex k with
    | some i => .arr (elems.set i v) props
    | none =>
      if k = "length" then .arr elems props
      else .arr elems (assocSet props k v)
  | w, _, _ => w

/-- Embedding of JS `delete v[k]`.  Deleting array elements (which would
leave a hole) and `length` are not modelled; deleting off a scalar is the
JS no-op. -/
def jsDeleteProp : JSValue → String → JSValue
  | .obj fields, k => .obj (assocDelete fields k)
  | .arr elems props, k =>
    match arrIndex k with
    | some _ => .arr elems props
    | none =>
      if k = "length" then .arr elems props
      else .arr elems (assocDelete props k)
  | w, _ => w

/-- Embedding of the check `typeof x === 'object'` for `IRValue`s: true for
plain objects and arrays, false for string/number/boolean. -/
def typeofIsObject : JSValue → Bool
  | .obj _ => true
  | .arr _ _ => true
  | _ => false

/-- Descent loop of `ResourceTypeMapper.getNestedValue`: at each segment the
source returns `undefined` when the current value is null/undefined, else
indexes into it; indexing a scalar yields `undefined` here (data
properties only, see `jsGetProp`). -/
def getNestedGo : JSValue → List String → Option JSValue
  | v, [] => some v
  | v, p :: rest =>
    match jsGetProp v p with
    | some w => getNestedGo w rest
    | none => none

/-- `ResourceTypeMapper.getNestedValue(obj, path)` for a property record
root: splits the path on dots and descends. -/
def getNestedValue (fields : JFields) (path : String) : Option JSValue :=
  getNestedGo (JSValue.obj fields) (jsSplitDot path)

/-- Descent loop of `ResourceTypeMapper.setNestedValue`: for every segment
but the last, a missing or non-object value (`!(part in current) ||
typeof current[part] !== 'object'`) is replaced by a fresh `{}` before
descending; the last segment is a plain property write.  The in-place
mutation of the source is rendered as rebuilding the spine. -/
def setNestedGo : JSValue → List String → JSValue → JSValue
  | v, [], _ => v
  | v, [last], x => jsSetProp v last x
  | v, p :: q :: rest, x =>
    let child :=
      match jsGetProp v p with
      | some w => if typeofIsObject w then w else JSValue.obj []
      | none => JSValue.obj []
    jsSetProp v p (setNestedGo child (q :: rest) x)

/-- `ResourceTypeMapper.setNestedValue(obj, path, value)` for a property
record root. -/
def setNestedValue (fields : JFields) (path : String) (value : JSValue) : JFields :=
  match setNestedGo (JSValue.obj fields) (jsSplitDot path) value with
  | .obj fields2 => fields2
  | _ => fields

/-- Descent loop of `ResourceTypeMapper.deleteNestedValue`: for every
segment but the last the source returns unchanged when `!(part in
current)`, else descends; the last segment is a `delete`.  Descending into
a scalar (where the source's `in` operator would throw) leaves the value
unchanged; that branch is unreachable from `mapProperties`, which deletes
only paths `getNestedValue` resolved. -/
def deleteNestedGo : JSValue → List String → JSValue
  | v, [] => v
  | v, [last] => jsDeleteProp v last
  | v, p :: q :: rest =>
    match jsGetProp v p with
    | some w => jsSetProp v p (deleteNestedGo w (q :: rest))
    | none => v

/-- `ResourceTypeMapper.deleteNestedValue(obj, path)` for a property record
root. -/
def deleteNestedValue (fields : JFields) (path : String) : JFields :=
  match deleteNestedGo (JSValue.obj fields) (jsSplitDot path) with
  | .obj fields2 => fields2
  | _ => fields

/-- `PropertyMapping` of src/core/mapping.ts. -/
structure PropertyMapping where
  sourcePath : String
  targetPath : String
  valueTransform : Option (JSValue → JSValue) := none

/-- Whole-property-set `Transformation` of src/core/mapping.ts. -/
abbrev Transformation := JFields → JFields

/-- `ResourceTypeMapping` of src/core/mapping.ts. -/
structure ResourceTypeMapping where
  sourceType : String
  targetType : String
  propertyMappings : List PropertyMapping
  transformations : List Transformation

/-- The `mappings` field of `ResourceTypeMapper`: a Map keyed by
`sourceLang:targetLang` (lower-cased) holding a Map keyed by source
resource type. -/
abbrev MappingTable := List (String × List (String × ResourceTypeMapping))

/-- `ResourceTypeMapper.getMappingKey`. -/
def getMappingKey (sourceLanguage targetLanguage : String) : String :=
  jsLower sourceLanguage ++ ":" ++ jsLower targetLanguage

/-- `ResourceTypeMapper.registerMapping`. -/
def registerMapping (table : MappingTable) (sourceLanguage targetLanguage : String)
    (mapping : ResourceTypeMapping) : MappingTable :=
  let key := getMappingKey sourceLanguage targetLanguage
  let languageMappings := (assocGet table key).getD []
  assocSet table key (assocSet languageMappings mapping.sourceType mapping)

/-- `ResourceTypeMapper.getMapping`. -/
def getMapping (table : MappingTable) (sourceLanguage targetLanguage sourceType : String) :
    Option ResourceTypeMapping :=
  match assocGet table (getMappingKey sourceLanguage targetLanguage) with
  | none => none
  | some languageMappings => assocGet languageMappings sourceType

/-- `ResourceTypeMapper.hasMapping`. -/
def hasMapping (table : MappingTable) (sourceLanguage targetLanguage sourceType : String) :
    Bool :=
  (getMapping table sourceLanguage targetLanguage sourceType).isSome

/-- `ResourceTypeMapper.mapResourceType`. -/
def mapResourceType (table : MappingTable)
    (sourceLanguage targetLanguage sourceType : String) : Option String :=
  (getMapping table sourceLanguage targetLanguage sourceType).map
    (fun mapping => mapping.targetType)

/-- Body of the property-mapping loop of `ResourceTypeMapper.mapProperties`
(lines 131-146): read at `sourcePath`; `undefined` skips the rule; else
remove the source property, apply the optional transform, set the target
property. -/
def applyPropertyMapping (result : JFields) (propMapping : PropertyMapping) : JFields :=
  match getNestedValue result propMapping.sourcePath with
  | none => result
  | some sourceValue =>
    let afterDelete := deleteNestedValue result propMapping.sourcePath
    let targetValue :=
      match propMapping.valueTransform with
      | some transform => transform sourceValue
      | none => sourceValue
    setNestedValue afterDelete propMapping.targetPath targetValue

/-- `ResourceTypeMapper.mapProperties`.  The source's `{ ...properties }`
shallow copy is the identity at the pure value level (its aliasing
consequences are modelled separately on the heap, see
`mapPropertiesHeap`). -/
def mapProperties (table : MappingTable)
    (sourceLanguage targetLanguage sourceType : String)
    (properties : JFields) : JFields :=
  match getMapping table sourceLanguage targetLanguage sourceType with
  | none => properties
  | some mapping =>
    let result := properties
    let afterRules := mapping.propertyMappings.foldl applyPropertyMapping result
    mapping.transformations.foldl (fun result transformation => transformation result)
      afterRules

/-- Rule step written from the specification sentence: "read the value at
`sourcePath` (missing path means skip this rule, not an error); if present,
delete it from its source location, apply the optional value transform,
then write it at `targetPath`". -/
def specRuleStep (props : JFields) (rule : PropertyMapping) : JFields :=
  match getNestedValue props rule.sourcePath with
  | none => props
  | some value =>
    let removed := deleteNestedValue props rule.sourcePath
    let transformed :=
      match rule.valueTransform with
      | some f => f value
      | none => value
    setNestedValue removed rule.targetPath transformed

/-- Runtime shape of a plugin field value, as far as the registry's
reflective validation (src/core/registry.ts) and the shape guards of
src/core/plugin.ts inspect it: `undef` models an absent field (a field
explicitly set to the value `undefined` is not distinguished from an
absent one), `func` is an opaque function value tagged for identity, and
`arr` models the string arrays used for `fileExtensions`. -/
inductive JSAtom where
  | undef
  | str (s : String)
  | num (n : Int)
  | boolv (b : Bool)
  | func (tag : String)
  | arr (elems : List String)
deriving DecidableEq

/-- JS truthiness of a plugin field value ("" , 0 and undefined are falsy;
any array or function is truthy). -/
def jsTruthy : JSAtom → Bool
  | .undef => false
  | .str s => s ≠ ""
  | .num n => n ≠ 0
  | .boolv b => b
  | .func _ => true
  | .arr _ => true

/-- Embedding of `typeof x === 'string'`. -/
def jsAtomIsString : JSAtom → Bool
  | .str _ => true
  | _ => false

/-- Embedding of `typeof x === 'function'`. -/
def jsAtomIsFunction : JSAtom → Bool
  | .func _ => true
  | _ => false

/-- Embedding of `Array.isArray(x)`. -/
def jsAtomIsArray : JSAtom → Bool
  | .arr _ => true
  | _ => false

/-- `x.length` for the array case (only read behind an `Array.isArray`
guard in the source). -/
def jsAtomArrayLength : JSAtom → Nat
  | .arr elems => elems.length
  | _ => 0

/-- Embedding of `x.toLowerCase()` as applied to `plugin.languageName`;
the non-string branch is unreachable because every call site sits behind
the languageName validation. -/
def atomNameLower : JSAtom → String
  | .str s => jsLower s
  | _ => ""

/-- A plugin object as the untyped registration path sees it: any of the
parser fields (`fileExtensions`, `parse`, `validate`) and generator fields
(`fileExtension`, `generate`, `format`) may be present or absent.  A plain
parser plugin simply has the generator fields `undef` and vice versa. -/
structure PluginObj where
  languageName : JSAtom
  fileExtensions : JSAtom := .undef
  fileExtension : JSAtom := .undef
  parse : JSAtom := .undef
  validate : JSAtom := .undef
  generate : JSAtom := .undef
  format : JSAtom := .undef
deriving DecidableEq

/-- `PluginRegistry.validateParserPlugin`: returns the
`PluginValidationError` message instead of throwing, `none` when
validation passes.  The checks mirror registry.ts lines 110-138 in
order. -/
def validateParserPlugin (plugin : PluginObj) : Option String :=
  if !jsTruthy plugin.languageName || !jsAtomIsString plugin.languageName then
    some "Parser plugin must have a languageName property of type string"
  else if !jsTruthy plugin.fileExtensions || !jsAtomIsArray plugin.fileExtensions
      || jsAtomArrayLength plugin.fileExtensions == 0 then
    some "Parser plugin must have a non-empty fileExtensions array"
  else if !jsAtomIsFunction plugin.parse then
    some "Parser plugin must implement parse() method"
  else if !jsAtomIsFunction plugin.validate then
    some "Parser plugin must implement validate() method"
  else
    none

/-- `PluginRegistry.validateGeneratorPlugin` (registry.ts lines
144-168). -/
def validateGeneratorPlugin (plugin : PluginObj) : Option String :=
  if !jsTruthy plugin.languageName || !jsAtomIsString plugin.languageName then
    some "Generator plugin must have a languageName property of type string"
  else if !jsTruthy plugin.fileExtension || !jsAtomIsString plugin.fileExtension then
    some "Generator plugin must have a fileExtension property of type string"
  else if !jsAtomIsFunction plugin.generate then
    some "Generator plugin must implement generate() method"
  else if !jsAtomIsFunction plugin.format then
    some "Generator plugin must implement format() method"
  else
    none

/-- The two Maps of `PluginRegistry`. -/
structure PluginRegistry where
  parsers : List (String × PluginObj)
  generators : List (String × PluginObj)
deriving DecidableEq

/-- A freshly constructed `PluginRegistry`. -/
def emptyRegistry : PluginRegistry := ⟨[], []⟩

/-- `PluginRegistry.registerParser`: the thrown `PluginValidationError` is
rendered as the second component; on a throw the registry state is the
unchanged first component (the `set` is never reached). -/
def registerParser (st : PluginRegistry) (plugin : PluginObj) :
    PluginRegistry × Option String :=
  match validateParserPlugin plugin with
  | some err => (st, some err)
  | none =>
    ({ st with parsers := assocSet st.parsers (atomNameLower plugin.languageName) plugin },
      none)

/-- `PluginRegistry.registerGenerator`. -/
def registerGenerator (st : PluginRegistry) (plugin : PluginObj) :
    PluginRegistry × Option String :=
  match validateGeneratorPlugin plugin with
  | some err => (st, some err)
  | none =>
    ({ st with
        generators := assocSet st.generators (atomNameLower plugin.languageName) plugin },
      none)

/-- `isParserPlugin` of src/core/plugin.ts: `'parse' in plugin &&
'validate' in plugin`; field presence is `≠ undef` here (see
`PluginObj`). -/
def isParserPluginB (plugin : PluginObj) : Bool :=
  (match plugin.parse with | .undef => false | _ => true)
    && (match plugin.validate with | .undef => false | _ => true)

/-- `isGeneratorPlugin` of src/core/plugin.ts: `'generate' in plugin &&
'format' in plugin`. -/
def isGeneratorPluginB (plugin : PluginObj) : Bool :=
  (match plugin.generate with | .undef => false | _ => true)
    && (match plugin.format with | .undef => false | _ => true)

/-- `PluginRegistry.registerPlugin` (registry.ts lines 52-62). -/
def registerPlugin (st : PluginRegistry) (plugin : PluginObj) :
    PluginRegistry × Option String :=
  if isParserPluginB plugin then registerParser st plugin
  else if isGeneratorPluginB plugin then registerGenerator st plugin
  else (st, some "Plugin must implement either ParserPlugin or GeneratorPlugin interface")

/-- `PluginRegistry.getParser`. -/
def getParser (st : PluginRegistry) (languageName : String) : Option PluginObj :=
  assocGet st.parsers (jsLower languageName)

/-- `PluginRegistry.getGenerator`. -/
def getGenerator (st : PluginRegistry) (languageName : String) : Option PluginObj :=
  assocGet st.generators (jsLower languageName)

/-- `PluginRegistry.hasParser`. -/
def hasParser (st : PluginRegistry) (languageName : String) : Bool :=
  (getParser st languageName).isSome

/-- `PluginRegistry.hasGenerator`. -/
def hasGenerator (st : PluginRegistry) (languageName : String) : Bool :=
  (getGenerator st languageName).isSome

/-- `PluginRegistry.getParserLanguages`: keys in registration order. -/
def getParserLanguages (st : PluginRegistry) : List String :=
  st.parsers.map (fun kv => kv.1)

/-- `PluginRegistry.getGeneratorLanguages`. -/
def getGeneratorLanguages (st : PluginRegistry) : List String :=
  st.generators.map (fun kv => kv.1)

/-! ### Heap model of the property rewrite

`mapProperties` copies only the top level of its input
(`let result = { ...properties }`) and then mutates nested objects in
place through `deleteNestedValue` / `setNestedValue`.  The pure embedding
above cannot express the resulting aliasing between the caller's input
object and the returned object, so the same three helpers are embedded
once more over an explicit heap of JS objects.  Arrays and the scalar
corner cases spelled out on the pure embedding are not duplicated here;
the heap fragment covers object graphs, which is what the aliasing claim
is about. -/

/-- A heap value: a scalar or a reference to a heap object. -/
inductive HVal where
  | str (s : String)
  | num (n : Int)
  | boolv (b : Bool)
  | ref (a : Nat)
deriving DecidableEq

/-- Field list of one heap object. -/
abbrev HFields := List (String × HVal)

/-- The heap: addresses to objects. -/
abbrev Heap := List (Nat × HFields)

/-- Fields of the object at an address (an absent address reads as an empty
object; all runs keep addresses allocated). -/
def heapFields (h : Heap) (a : Nat) : HFields := (assocGet h a).getD []

/-- Replace the object stored at an address. -/
def heapSetFields (h : Heap) (a : Nat) (fields : HFields) : Heap :=
  assocSet h a fields

/-- `getNestedValue` over the heap: dereferences at each segment; reading a
property off a scalar is `undefined` as in the pure embedding. -/
def heapGetNested (h : Heap) : HVal → List String → Option HVal
  | v, [] => some v
  | .ref a, p :: rest =>
    match assocGet (heapFields h a) p with
    | some w => heapGetNested h w rest
    | none => none
  | _, _ :: _ => none

/-- `deleteNestedValue` over the heap: descends while `part in current`
holds and deletes the final segment in place — mutating the object it
lands on, wherever else that object is referenced from. -/
def heapDeleteNested (h : Heap) : HVal → List String → Heap
  | .ref a, [last] => heapSetFields h a (assocDelete (heapFields h a) last)
  | .ref a, p :: q :: rest =>
    (match assocGet (heapFields h a) p with
     | some w => heapDeleteNested h w (q :: rest)
     | none => h)
  | _, _ => h

/-- `setNestedValue` over the heap: a missing or non-object intermediate is
replaced by a freshly allocated `{}` (the `next` counter is the
allocator); the final segment is written in place. -/
def heapSetNested (h : Heap) (next : Nat) : HVal → List String → HVal → Heap × Nat
  | .ref a, [last], x =>
    (heapSetFields h a (assocSet (heapFields h a) last x), next)
  | .ref a, p :: q :: rest, x =>
    (match assocGet (heapFields h a) p with
     | some (.ref a2) => heapSetNested h next (.ref a2) (q :: rest) x
     | _ =>
       let h2 := heapSetFields h a (assocSet (heapFields h a) p (.ref next))
       let h3 := assocSet h2 next []
       heapSetNested h3 (next + 1) (.ref next) (q :: rest) x)
  | _, _, _ => (h, next)

/-- A property mapping rule over heap values. -/
structure HPropertyMapping where
  sourcePath : String
  targetPath : String
  valueTransform : Option (HVal → HVal) := none

/-- A resource type mapping over the heap (source and target type tags play
no role in the property rewrite itself and are omitted). -/
structure HResourceTypeMapping where
  propertyMappings : List HPropertyMapping
  transformations : List (Heap × Nat → Heap × Nat)

/-- Body of `ResourceTypeMapper.mapProperties` over the heap, entered after
a successful `getMapping` lookup (the lookup itself is heap-free and
already embedded purely): `result = { ...properties }` allocates a new
object sharing the top-level field list — and hence every nested object
reference — with the caller's input, then the rules and transformations
run against `result`.  Returns the final heap, the result address and the
allocation counter. -/
def mapPropertiesHeap (mapping : HResourceTypeMapping) (h : Heap)
    (propsAddr : Nat) (next : Nat) : Heap × Nat × Nat :=
  let resultAddr := next
  let h1 := assocSet h resultAddr (heapFields h propsAddr)
  let start : Heap × Nat × Nat := (h1, resultAddr, next + 1)
  let afterRules := mapping.propertyMappings.foldl (fun st pm =>
      let (hh, res, nx) := st
      match heapGetNested hh (.ref res) (jsSplitDot pm.sourcePath) with
      | none => (hh, res, nx)
      | some sourceValue =>
        let h2 := heapDeleteNested hh (.ref res) (jsSplitDot pm.sourcePath)
        let targetValue :=
          match pm.valueTransform with
          | some f => f sourceValue
          | none => sourceValue
        let (h3, nx2) := heapSetNested h2 nx (.ref res) (jsSplitDot pm.targetPath) targetValue
        (h3, res, nx2)) start
  let (h4, res4, nx4) := afterRules
  let final := mapping.transformations.foldl (fun pr t => t pr) (h4, res4)
  (final.1, final.2, nx4)

/-! ### Translation engine

Modelled from the spec: `src/core/engine.ts` (the `TranslationEngine`
class) is not among the provided sources — only its test file is — so the
orchestration below follows spec section 4.5 (Lookup, optional Validate,
Parse, Generate, optional Format, Done) together with the result shapes
of src/core/plugin.ts and the behaviors pinned by the engine test file.
Plugin lookup from the registry is represented by the two `Option`
arguments the Lookup phase resolves; diagnostics are modelled by their
messages. -/

theorem assocGet_assocSet_self {κ α : Type} [DecidableEq κ]
    (m : List (κ × α)) (k : κ) (v : α) :
    assocGet (assocSet m k v) k = some v := by
  induction m with
  | nil => simp [assocSet, assocGet]
  | cons kv rest ih =>
    by_cases hk : kv.1 = k
    · simp [assocSet, assocGet, hk]
    · simp [assocSet, assocGet, hk, ih]

theorem assocGet_assocSet_ne {κ α : Type} [DecidableEq κ]
    (m : List (κ × α)) (k k2 : κ) (v : α) (h : k ≠ k2) :
    assocGet (assocSet m k v) k2 = assocGet m k2 := by
  induction m with
  | nil => simp [assocSet, assocGet, h]
  | cons kv rest ih =>
    by_cases hk : kv.1 = k
    · simp [assocSet, assocGet, hk, h]
    · simp [assocSet, assocGet, hk, ih]

theorem assocGet_assocDelete_ne {κ α : Type} [DecidableEq κ]
    (m : List (κ × α)) (k k2 : κ) (h : k ≠ k2) :
    assocGet (assocDelete m k) k2 = assocGet m k2 := by
  induction m with
  | nil => simp [assocDelete]
  | cons kv rest ih =>
    by_cases hk : kv.1 = k
    · have : kv.1 ≠ k2 := by rw [hk]; exact h
      simp [assocDelete, assocGet, hk, this, h]
    · simp [assocDelete, assocGet, hk, ih]

theorem assocSet_assocSet_same {κ α : Type} [DecidableEq κ]
    (m : List (κ × α)) (k : κ) (v : α) :
    assocSet (assocSet m k v) k v = assocSet m k v := by
  induction m with
  | nil => simp [assocSet]
  | cons kv rest ih =>
    by_cases hk : kv.1 = k
    · simp [assocSet, hk]
    · simp [assocSet, hk, ih]

theorem assocGet_setNestedValue_ne (fs : JFields) (path : String) (x : JSValue)
    (k : String) (h : (jsSplitDot path).head? ≠ some k) :
    assocGet (setNestedValue fs path x) k = assocGet fs k := by
  unfold setNestedValue
  cases hs : jsSplitDot path with
  | nil => simp [setNestedGo]
  | cons p rest =>
    have hpk : p ≠ k := by
      intro e
      exact h (by rw [hs, e]; rfl)
    cases rest with
    | nil => simp [setNestedGo, jsSetProp, assocGet_assocSet_ne _ _ _ _ hpk]
    | cons q rest2 => simp [setNestedGo, jsSetProp, assocGet_assocSet_ne _ _ _ _ hpk]

theorem assocGet_deleteNestedValue_ne (fs : JFields) (path : String)
    (k : String) (h : (jsSplitDot path).head? ≠ some k) :
    assocGet (deleteNestedValue fs path) k = assocGet fs k := by
  unfold deleteNestedValue
  cases hs : jsSplitDot path with
  | nil => simp [deleteNestedGo]
  | cons p rest =>
    have hpk : p ≠ k := by
      intro e
      exact h (by rw [hs, e]; rfl)
    cases rest with
    | nil => simp [deleteNestedGo, jsDeleteProp, assocGet_assocDelete_ne _ _ _ hpk]
    | cons q rest2 =>
      cases hg : jsGetProp (JSValue.obj fs) p with
      | none => simp [deleteNestedGo, hg]
      | some w =>
        simp [deleteNestedGo, hg, jsSetProp, assocGet_assocSet_ne _ _ _ _ hpk]

theorem assocGet_applyPropertyMapping_ne (fs : JFields) (pm : PropertyMapping)
    (k : String)
    (hs : (jsSplitDot pm.sourcePath).head? ≠ some k)
    (ht : (jsSplitDot pm.targetPath).head? ≠ some k) :
    assocGet (applyPropertyMapping fs pm) k = assocGet fs k := by
  unfold applyPropertyMapping
  cases hg : getNestedValue fs pm.sourcePath with
  | none => rfl
  | some v =>
    simp only []
    rw [assocGet_setNestedValue_ne _ _ _ _ ht,
      assocGet_deleteNestedValue_ne _ _ _ hs]

/-! ### Claims about the resource mapping engine -/

/-- Claim C1: for every registered `ResourceTypeMapping` and every input
property map, `mapProperties` processes each `PropertyMapping` in
declaration order — read the value at the dot-separated `sourcePath`, skip
the rule without error when the path is missing, otherwise delete the
value from its source location, apply the optional `valueTransform`, and
write the result at `targetPath` — and then folds the declared
transformations over the outcome. -/
theorem mapProperties_rule_pipeline (table : MappingTable)
    (sourceLanguage targetLanguage sourceType : String)
    (m : ResourceTypeMapping) (props : JFields)
    (h : getMapping table sourceLanguage targetLanguage sourceType = some m) :
    mapProperties table sourceLanguage targetLanguage sourceType props
      = m.transformations.foldl (fun r t => t r)
          (m.propertyMappings.foldl specRuleStep props) := by
  unfold mapProperties
  rw [h]
  rfl

/-- Concrete instantiation of `mapProperties_rule_pipeline` on the
`aws_s3_bucket` mapping of the source. -/
def c1Mapping : ResourceTypeMapping :=
  { sourceType := "aws_s3_bucket", targetType := "AWS::S3::Bucket",
    propertyMappings :=
      [{ sourcePath := "bucket", targetPath := "BucketName" },
       { sourcePath := "acl", targetPath := "AccessControl" }],
    transformations := [] }

/-- Table holding `c1Mapping` for the terraform → cloudformation pair. -/
def c1Table : MappingTable :=
  registerMapping [] "terraform" "cloudformation" c1Mapping

/-- Witness for C1 at the registered `aws_s3_bucket` mapping. -/
theorem mapProperties_rule_pipeline_witness :
    getMapping c1Table "terraform" "cloudformation" "aws_s3_bucket" = some c1Mapping
    ∧ mapProperties c1Table "terraform" "cloudformation" "aws_s3_bucket"
        [("bucket", JSValue.str "my-bucket"), ("acl", JSValue.str "private")]
      = c1Mapping.transformations.foldl (fun r t => t r)
          (c1Mapping.propertyMappings.foldl specRuleStep
            [("bucket", JSValue.str "my-bucket"), ("acl", JSValue.str "private")]) :=
  ⟨rfl, mapProperties_rule_pipeline c1Table "terraform" "cloudformation" "aws_s3_bucket"
    c1Mapping _ rfl⟩

/-- Claim C3: for every language pair and source type with no registered
mapping, `mapProperties` is the identity transform and `mapResourceType`
returns no mapping rather than an error. -/
theorem mapProperties_no_mapping_identity (table : MappingTable)
    (sourceLanguage targetLanguage sourceType : String) (props : JFields)
    (h : getMapping table sourceLanguage targetLanguage sourceType = none) :
    mapProperties table sourceLanguage targetLanguage sourceType props = props
    ∧ mapResourceType table sourceLanguage targetLanguage sourceType = none := by
  constructor
  · unfold mapProperties
    rw [h]
  · unfold mapResourceType
    rw [h]
    rfl

/-- Witness for C3 on an empty mapping table. -/
theorem mapProperties_no_mapping_identity_witness :
    getMapping [] "terraform" "cloudformation" "unknown_type" = none
    ∧ (mapProperties [] "terraform" "cloudformation" "unknown_type"
          [("bucket", JSValue.str "my-bucket")]
        = [("bucket", JSValue.str "my-bucket")]
      ∧ mapResourceType [] "terraform" "cloudformation" "unknown_type" = none) :=
  ⟨rfl, mapProperties_no_mapping_identity [] "terraform" "cloudformation" "unknown_type"
    [("bucket", JSValue.str "my-bucket")] rfl⟩

/-- Claim C5: for every registered mapping, the whole-property-set
transformations run strictly after all property-mapping path moves, in
declaration order, each receiving the previous stage's output, and the
final result is the output of the last transformation. -/
theorem mapProperties_transformations_after_rules (table : MappingTable)
    (sourceLanguage targetLanguage sourceType : String)
    (m : ResourceTypeMapping) (props : JFields)
    (ts : List Transformation) (tLast : Transformation)
    (h : getMapping table sourceLanguage targetLanguage sourceType = some m)
    (hts : m.transformations = ts ++ [tLast]) :
    mapProperties table sourceLanguage targetLanguage sourceType props
      = tLast (ts.foldl (fun r t => t r)
          (m.propertyMappings.foldl applyPropertyMapping props)) := by
  unfold mapProperties
  rw [h]
  simp [hts, List.foldl_append]

/-- First transformation of the C5 witness (mirrors the "multiple
transformations in order" test). -/
def addStepOne : Transformation := fun props => assocSet props "step1" (JSValue.bool true)

/-- Second transformation of the C5 witness. -/
def addStepTwo : Transformation := fun props => assocSet props "step2" (JSValue.bool true)

/-- Mapping of the C5 witness. -/
def c5Mapping : ResourceTypeMapping :=
  { sourceType := "test_resource", targetType := "Test::Resource",
    propertyMappings := [], transformations := [addStepOne, addStepTwo] }

/-- Table holding `c5Mapping`. -/
def c5Table : MappingTable := registerMapping [] "source" "target" c5Mapping

/-- Witness for C5: with two transformations the result is the second
applied to the first's output. -/
theorem mapProperties_transformations_after_rules_witness :
    getMapping c5Table "source" "target" "test_resource" = some c5Mapping
    ∧ c5Mapping.transformations = [addStepOne] ++ [addStepTwo]
    ∧ mapProperties c5Table "source" "target" "test_resource"
        [("name", JSValue.str "test")]
      = addStepTwo ([addStepOne].foldl (fun r t => t r)
          (c5Mapping.propertyMappings.foldl applyPropertyMapping
            [("name", JSValue.str "test")])) :=
  ⟨rfl, rfl, mapProperties_transformations_after_rules c5Table "source" "target"
    "test_resource" c5Mapping [("name", JSValue.str "test")] [addStepOne] addStepTwo
    rfl rfl⟩

/-- Number of fields when an optional value is a plain object; used to
separate two concrete values without decidable equality on `JSValue`. -/
def objFieldCount : Option JSValue → Nat
  | some (.obj fields) => fields.length
  | _ => 0

/-- Mapping used by the C2 counterexample: one rule with the nested source
path `tags.env` and no transformations. -/
def c2Mapping : ResourceTypeMapping :=
  { sourceType := "t", targetType := "T",
    propertyMappings := [{ sourcePath := "tags.env", targetPath := "Env" }],
    transformations := [] }

/-- Table holding `c2Mapping`. -/
def c2Table : MappingTable := registerMapping [] "s" "g" c2Mapping

/-- Input of the C2 counterexample: the top-level key `tags` is not the
`sourcePath` of any rule, yet its value is mutated by the rule for
`tags.env`. -/
def c2Props : JFields :=
  [("tags", JSValue.obj [("env", JSValue.str "prod"), ("keep", JSValue.str "k")])]

/-- Counterexample to claim C2 as stated: for the registered `c2Mapping`
(no transformations) the top-level property `tags` is not the `sourcePath`
of any `PropertyMapping`, is present in the input, and still does not
appear unchanged in the result of `mapProperties` — the rule for
`tags.env` deletes the `env` entry inside it. -/
theorem mapProperties_unmapped_key_not_preserved_cex :
    (∀ pm ∈ c2Mapping.propertyMappings, pm.sourcePath ≠ "tags")
    ∧ c2Mapping.transformations = []
    ∧ getMapping c2Table "s" "g" "t" = some c2Mapping
    ∧ (assocGet c2Props "tags").isSome = true
    ∧ assocGet (mapProperties c2Table "s" "g" "t" c2Props) "tags"
        ≠ assocGet c2Props "tags" :=
  ⟨by decide, rfl, rfl, rfl,
    fun h => absurd (congrArg objFieldCount h) (by decide)⟩

/-- Claim C2 as amended: for every registered mapping with no
whole-property-set transformations, every top-level property whose key is
not the first dot-segment of the `sourcePath` of any rule and not the
first dot-segment of the `targetPath` of any rule appears unchanged (same
key, same value) in the result of `mapProperties`. -/
theorem mapProperties_untouched_root_keys_preserved (table : MappingTable)
    (sourceLanguage targetLanguage sourceType : String)
    (m : ResourceTypeMapping) (props : JFields) (k : String)
    (h : getMapping table sourceLanguage targetLanguage sourceType = some m)
    (htrans : m.transformations = [])
    (hkeys : ∀ pm ∈ m.propertyMappings,
      (jsSplitDot pm.sourcePath).head? ≠ some k
        ∧ (jsSplitDot pm.targetPath).head? ≠ some k) :
    assocGet (mapProperties table sourceLanguage targetLanguage sourceType props) k
      = assocGet props k := by
  have main : ∀ (rules : List PropertyMapping) (fs : JFields),
      (∀ pm ∈ rules,
        (jsSplitDot pm.sourcePath).head? ≠ some k
          ∧ (jsSplitDot pm.targetPath).head? ≠ some k) →
      assocGet (rules.foldl applyPropertyMapping fs) k = assocGet fs k := by
    intro rules
    induction rules with
    | nil => intro fs _; rfl
    | cons r rest ih =>
      intro fs hall
      rw [List.foldl_cons]
      rw [ih _ (fun pm hpm => hall pm (List.mem_cons_of_mem r hpm))]
      exact assocGet_applyPropertyMapping_ne fs r k
        (hall r (List.mem_cons_self r rest)).1
        (hall r (List.mem_cons_self r rest)).2
  unfold mapProperties
  rw [h]
  simp only [htrans, List.foldl_nil]
  exact main m.propertyMappings props hkeys

/-- Witness for the amended C2 on an input with an extra top-level key
`other` untouched by the `tags.env` rule. -/
theorem mapProperties_untouched_root_keys_preserved_witness :
    getMapping c2Table "s" "g" "t" = some c2Mapping
    ∧ c2Mapping.transformations = []
    ∧ (∀ pm ∈ c2Mapping.propertyMappings,
        (jsSplitDot pm.sourcePath).head? ≠ some "other"
          ∧ (jsSplitDot pm.targetPath).head? ≠ some "other")
    ∧ assocGet (mapProperties c2Table "s" "g" "t"
          (("other", JSValue.str "o") :: c2Props)) "other"
        = assocGet (("other", JSValue.str "o") :: c2Props) "other" :=
  ⟨rfl, rfl, by decide,
    mapProperties_untouched_root_keys_preserved c2Table "s" "g" "t" c2Mapping
      (("other", JSValue.str "o") :: c2Props) "other" rfl rfl (by decide)⟩

/-- True when an optional value is an array; discriminator for the C4
counterexample. -/
def isArrOpt : Option JSValue → Bool
  | some (.arr _ _) => true
  | _ => false

/-- Input of the C4 counterexample: the intermediate segment `a` holds a
list. -/
def c4Props : JFields := [("a", JSValue.arr [JSValue.str "x"] [])]

/-- Counterexample to claim C4 as stated: writing through the intermediate
segment `a`, which holds a list, does not replace the list with a fresh
mapping level.  `typeof` is `'object'` for a JS array, so `setNestedValue`
descends into the list and adds `b` as a named property on the array
object. -/
theorem setNestedValue_list_descended_cex :
    setNestedValue c4Props "a.b" (JSValue.str "v")
        ≠ assocSet c4Props "a" (JSValue.obj [("b", JSValue.str "v")])
    ∧ setNestedValue c4Props "a.b" (JSValue.str "v")
        = [("a", JSValue.arr [JSValue.str "x"] [("b", JSValue.str "v")])] :=
  ⟨fun h => absurd (congrArg (fun fs => isArrOpt (assocGet fs "a")) h) (by decide),
    rfl⟩

/-- The nest of fresh intermediate mapping levels the amended C4 claim
speaks of: one new single-entry mapping per remaining path segment, the
value at the innermost level. -/
def freshLevels : List String → JSValue → JSValue
  | [], x => x
  | [last], x => JSValue.obj [(last, x)]
  | p :: q :: rest, x => JSValue.obj [(p, freshLevels (q :: rest) x)]

theorem setNestedGo_fresh (x : JSValue) :
    ∀ (parts : List String), parts ≠ [] →
      setNestedGo (JSValue.obj []) parts x = freshLevels parts x := by
  intro parts
  induction parts with
  | nil => intro h; exact absurd rfl h
  | cons q t ih =>
    intro _
    cases t with
    | nil => rfl
    | cons r t2 =>
      show setNestedGo (JSValue.obj []) (q :: r :: t2) x
        = freshLevels (q :: r :: t2) x
      simp [setNestedGo, jsGetProp, assocGet, jsSetProp, freshLevels,
        ih (by simp), assocSet]

/-- Claim C4 as amended, for target paths of any depth: at the root and at
every level along the way, a missing segment or a scalar
(string/number/boolean) found at an intermediate segment is overwritten by
the nest of fresh mapping levels for all remaining segments, while a value
of object type found at an intermediate segment — a plain mapping or a
list — is not replaced: the write descends into it; the final segment is
written as a named entry of a mapping, and on a list as a named property
on the array object. -/
theorem setNestedValue_intermediate_levels (fs : JFields) (path p : String)
    (rest : List String) (x : JSValue)
    (hsplit : jsSplitDot path = p :: rest) (hrest : rest ≠ []) :
    (assocGet fs p = none →
        setNestedValue fs path x = assocSet fs p (freshLevels rest x))
    ∧ (∀ w, assocGet fs p = some w → typeofIsObject w = false →
        setNestedValue fs path x = assocSet fs p (freshLevels rest x))
    ∧ (∀ w, assocGet fs p = some w → typeofIsObject w = true →
        setNestedValue fs path x = assocSet fs p (setNestedGo w rest x))
    ∧ (∀ (v : JSValue) (q : String) (rest2 : List String), rest2 ≠ [] →
        (jsGetProp v q = none
          ∨ ∃ w, jsGetProp v q = some w ∧ typeofIsObject w = false) →
        setNestedGo v (q :: rest2) x = jsSetProp v q (freshLevels rest2 x))
    ∧ (∀ (v w : JSValue) (q : String) (rest2 : List String), rest2 ≠ [] →
        jsGetProp v q = some w → typeofIsObject w = true →
        setNestedGo v (q :: rest2) x = jsSetProp v q (setNestedGo w rest2 x))
    ∧ (∀ (gs : List (String × JSValue)) (q : String),
        setNestedGo (JSValue.obj gs) [q] x = JSValue.obj (assocSet gs q x))
    ∧ (∀ (es : List JSValue) (ps : List (String × JSValue)) (q : String),
        arrIndex q = none → q ≠ "length" →
        setNestedGo (JSValue.arr es ps) [q] x
          = JSValue.arr es (assocSet ps q x)) := by
  obtain ⟨r, t, hrt⟩ : ∃ r t, rest = r :: t := by
    cases rest with
    | nil => exact absurd rfl hrest
    | cons r t => exact ⟨r, t, rfl⟩
  refine ⟨?_, ?_, ?_, ?_, ?_, ?_, ?_⟩
  · intro hmiss
    simp [setNestedValue, hsplit, hrt, setNestedGo, jsGetProp, hmiss, jsSetProp,
      setNestedGo_fresh x (r :: t) (by simp)]
  · intro w hw hscalar
    simp [setNestedValue, hsplit, hrt, setNestedGo, jsGetProp, hw, hscalar,
      jsSetProp, setNestedGo_fresh x (r :: t) (by simp)]
  · intro w hw hobj
    simp [setNestedValue, hsplit, hrt, setNestedGo, jsGetProp, hw, hobj, jsSetProp]
  · intro v q rest2 hne hcase
    obtain ⟨r2, t2, hrt2⟩ : ∃ r2 t2, rest2 = r2 :: t2 := by
      cases rest2 with
      | nil => exact absurd rfl hne
      | cons r2 t2 => exact ⟨r2, t2, rfl⟩
    rcases hcase with hmiss | ⟨w, hw, hscalar⟩
    · simp [hrt2, setNestedGo, hmiss, setNestedGo_fresh x (r2 :: t2) (by simp)]
    · simp [hrt2, setNestedGo, hw, hscalar,
        setNestedGo_fresh x (r2 :: t2) (by simp)]
  · intro v w q rest2 hne hw hobj
    obtain ⟨r2, t2, hrt2⟩ : ∃ r2 t2, rest2 = r2 :: t2 := by
      cases rest2 with
      | nil => exact absurd rfl hne
      | cons r2 t2 => exact ⟨r2, t2, rfl⟩
    simp [hrt2, setNestedGo, hw, hobj]
  · intro gs q
    rfl
  · intro es ps q hq hql
    simp [setNestedGo, jsSetProp, hq, hql]

/-- Witness for the amended C4: through the three-segment path `A.B.C`, a
scalar at the first segment is overwritten by two fresh nested mapping
levels; the fresh nest is also evaluated explicitly. -/
theorem setNestedValue_intermediate_levels_witness :
    jsSplitDot "A.B.C" = "A" :: ["B", "C"] ∧ (["B", "C"] : List String) ≠ []
    ∧ assocGet ([("A", JSValue.str "s")] : JFields) "A" = some (JSValue.str "s")
    ∧ typeofIsObject (JSValue.str "s") = false
    ∧ freshLevels ["B", "C"] (JSValue.str "v")
        = JSValue.obj [("B", JSValue.obj [("C", JSValue.str "v")])]
    ∧ setNestedValue [("A", JSValue.str "s")] "A.B.C" (JSValue.str "v")
        = assocSet [("A", JSValue.str "s")] "A"
            (freshLevels ["B", "C"] (JSValue.str "v")) :=
  ⟨rfl, by simp, rfl, rfl, rfl,
    (setNestedValue_intermediate_levels [("A", JSValue.str "s")] "A.B.C" "A"
      ["B", "C"] (JSValue.str "v") rfl (by simp)).2.1 (JSValue.str "s") rfl rfl⟩

/-! ### Claims about the plugin registry -/

theorem validateParserPlugin_isSome_of (p : PluginObj)
    (hp : p.languageName = JSAtom.str "" ∨ jsAtomIsString p.languageName = false
        ∨ p.fileExtensions = JSAtom.undef ∨ p.fileExtensions = JSAtom.arr []
        ∨ p.parse = JSAtom.undef ∨ p.validate = JSAtom.undef) :
    ∃ e, validateParserPlugin p = some e := by
  unfold validateParserPlugin
  split_ifs with h1 h2 h3 h4
  · exact ⟨_, rfl⟩
  · exact ⟨_, rfl⟩
  · exact ⟨_, rfl⟩
  · exact ⟨_, rfl⟩
  · exfalso
    rcases hp with h | h | h | h | h | h
    · exact h1 (by rw [h]; decide)
    · exact h1 (by simp [h])
    · exact h2 (by rw [h]; decide)
    · exact h2 (by rw [h]; decide)
    · exact h3 (by rw [h]; decide)
    · exact h4 (by rw [h]; decide)

theorem validateGeneratorPlugin_isSome_of (g : PluginObj)
    (hg : g.languageName = JSAtom.str "" ∨ jsAtomIsString g.languageName = false
        ∨ g.fileExtension = JSAtom.undef ∨ g.fileExtension = JSAtom.str ""
        ∨ g.generate = JSAtom.undef ∨ g.format = JSAtom.undef) :
    ∃ e, validateGeneratorPlugin g = some e := by
  unfold validateGeneratorPlugin
  split_ifs with h1 h2 h3 h4
  · exact ⟨_, rfl⟩
  · exact ⟨_, rfl⟩
  · exact ⟨_, rfl⟩
  · exact ⟨_, rfl⟩
  · exfalso
    rcases hg with h | h | h | h | h | h
    · exact h1 (by rw [h]; decide)
    · exact h1 (by simp [h])
    · exact h2 (by rw [h]; decide)
    · exact h2 (by rw [h]; decide)
    · exact h3 (by rw [h]; decide)
    · exact h4 (by rw [h]; decide)

/-- Claim C6: a plugin object failing registration validation (empty or
non-string languageName; for a parser a missing or empty `fileExtensions`
array or a missing parse/validate operation; for a generator a missing or
empty `fileExtension` string or a missing generate/format operation) makes
registration raise a structured validation failure and leaves the registry
completely unchanged, so every previously registered plugin stays
resolvable. -/
theorem register_invalid_plugin_rejected (st : PluginRegistry)
    (p g : PluginObj) (q : String)
    (hp : p.languageName = JSAtom.str "" ∨ jsAtomIsString p.languageName = false
        ∨ p.fileExtensions = JSAtom.undef ∨ p.fileExtensions = JSAtom.arr []
        ∨ p.parse = JSAtom.undef ∨ p.validate = JSAtom.undef)
    (hg : g.languageName = JSAtom.str "" ∨ jsAtomIsString g.languageName = false
        ∨ g.fileExtension = JSAtom.undef ∨ g.fileExtension = JSAtom.str ""
        ∨ g.generate = JSAtom.undef ∨ g.format = JSAtom.undef) :
    ((registerParser st p).2.isSome = true ∧ (registerParser st p).1 = st
      ∧ getParser (registerParser st p).1 q = getParser st q
      ∧ getGenerator (registerParser st p).1 q = getGenerator st q)
    ∧ ((registerGenerator st g).2.isSome = true ∧ (registerGenerator st g).1 = st
      ∧ getGenerator (registerGenerator st g).1 q = getGenerator st q
      ∧ getParser (registerGenerator st g).1 q = getParser st q) := by
  obtain ⟨e1, he1⟩ := validateParserPlugin_isSome_of p hp
  obtain ⟨e2, he2⟩ := validateGeneratorPlugin_isSome_of g hg
  refine ⟨⟨?_, ?_, ?_, ?_⟩, ⟨?_, ?_, ?_, ?_⟩⟩ <;>
    simp [registerParser, registerGenerator, he1, he2]

/-- A valid parser plugin used by registry witnesses. -/
def tfParser : PluginObj :=
  { languageName := .str "Terraform", fileExtensions := .arr [".tf"],
    parse := .func "tfParse", validate := .func "tfValidate" }

/-- A second valid parser plugin for the same language name in different
case. -/
def tfParser2 : PluginObj :=
  { languageName := .str "TERRAFORM", fileExtensions := .arr [".tf", ".tf.json"],
    parse := .func "tfParse2", validate := .func "tfValidate2" }

/-- An invalid parser plugin: its `validate` operation is missing. -/
def badParser : PluginObj :=
  { languageName := .str "terraform", fileExtensions := .arr [".tf"],
    parse := .func "badParse" }

/-- An invalid generator plugin: its `fileExtension` is missing. -/
def badGenerator : PluginObj :=
  { languageName := .str "cloudformation",
    generate := .func "badGenerate", format := .func "badFormat" }

/-- Registry state with `tfParser` already registered. -/
def registryWithTf : PluginRegistry := (registerParser emptyRegistry tfParser).1

/-- Witness for C6: registering an invalid parser and an invalid generator
over a registry that already holds `tfParser` fails, leaves the state
unchanged and keeps `tfParser` resolvable. -/
theorem register_invalid_plugin_rejected_witness :
    (badParser.languageName = JSAtom.str "" ∨ jsAtomIsString badParser.languageName = false
      ∨ badParser.fileExtensions = JSAtom.undef ∨ badParser.fileExtensions = JSAtom.arr []
      ∨ badParser.parse = JSAtom.undef ∨ badParser.validate = JSAtom.undef)
    ∧ (badGenerator.languageName = JSAtom.str ""
      ∨ jsAtomIsString badGenerator.languageName = false
      ∨ badGenerator.fileExtension = JSAtom.undef
      ∨ badGenerator.fileExtension = JSAtom.str ""
      ∨ badGenerator.generate = JSAtom.undef ∨ badGenerator.format = JSAtom.undef)
    ∧ getParser registryWithTf "Terraform" = some tfParser
    ∧ ((registerParser registryWithTf badParser).2.isSome = true
      ∧ (registerParser registryWithTf badParser).1 = registryWithTf
      ∧ getParser (registerParser registryWithTf badParser).1 "Terraform"
          = getParser registryWithTf "Terraform"
      ∧ getGenerator (registerParser registryWithTf badParser).1 "Terraform"
          = getGenerator registryWithTf "Terraform")
    ∧ ((registerGenerator registryWithTf badGenerator).2.isSome = true
      ∧ (registerGenerator registryWithTf badGenerator).1 = registryWithTf
      ∧ getGenerator (registerGenerator registryWithTf badGenerator).1 "Terraform"
          = getGenerator registryWithTf "Terraform"
      ∧ getParser (registerGenerator registryWithTf badGenerator).1 "Terraform"
          = getParser registryWithTf "Terraform") :=
  ⟨by decide, by decide, rfl,
    (register_invalid_plugin_rejected registryWithTf badParser badGenerator "Terraform"
      (by decide) (by decide)).1,
    (register_invalid_plugin_rejected registryWithTf badParser badGenerator "Terraform"
      (by decide) (by decide)).2⟩

theorem assocSet_keys_assocSet_same {κ α : Type} [DecidableEq κ]
    (m : List (κ × α)) (k : κ) (v1 v2 : α) :
    List.map Prod.fst (assocSet (assocSet m k v1) k v2)
      = List.map Prod.fst (assocSet m k v1) := by
  induction m with
  | nil => simp [assocSet]
  | cons kv rest ih =>
    by_cases hk : kv.1 = k
    · simp [assocSet, hk]
    · simp [assocSet, hk, ih]

/-- Claim C7: for two valid plugins whose language names agree after case
normalization, registering both makes every subsequent case-insensitive
lookup resolve to the second plugin, without adding a second registry
entry; registering the same plugin twice leaves the registry state
unchanged. -/
theorem reregister_same_name_replaces (st : PluginRegistry)
    (p1 p2 : PluginObj) (q : String)
    (h1 : validateParserPlugin p1 = none) (h2 : validateParserPlugin p2 = none)
    (hname : atomNameLower p1.languageName = atomNameLower p2.languageName) :
    (jsLower q = atomNameLower p2.languageName →
      getParser (registerParser (registerParser st p1).1 p2).1 q = some p2)
    ∧ getParserLanguages (registerParser (registerParser st p1).1 p2).1
        = getParserLanguages (registerParser st p1).1
    ∧ (registerParser (registerParser st p1).1 p1).1 = (registerParser st p1).1 := by
  refine ⟨?_, ?_, ?_⟩
  · intro hq
    simp [registerParser, h1, h2, getParser, hq, assocGet_assocSet_self]
  · simp [registerParser, h1, h2, getParserLanguages, hname,
      assocSet_keys_assocSet_same]
  · simp [registerParser, h1, assocSet_assocSet_same]

/-- Witness for C7: `tfParser` then `tfParser2` (same name up to case); the
lookup under "Terraform" resolves to the second, and re-registering
`tfParser` twice is idempotent. -/
theorem reregister_same_name_replaces_witness :
    validateParserPlugin tfParser = none
    ∧ validateParserPlugin tfParser2 = none
    ∧ atomNameLower tfParser.languageName = atomNameLower tfParser2.languageName
    ∧ jsLower "Terraform" = atomNameLower tfParser2.languageName
    ∧ (getParser (registerParser (registerParser emptyRegistry tfParser).1 tfParser2).1
          "Terraform" = some tfParser2
      ∧ getParserLanguages
          (registerParser (registerParser emptyRegistry tfParser).1 tfParser2).1
        = getParserLanguages (registerParser emptyRegistry tfParser).1
      ∧ (registerParser (registerParser emptyRegistry tfParser).1 tfParser).1
        = (registerParser emptyRegistry tfParser).1) :=
  ⟨rfl, rfl, rfl, rfl,
    (reregister_same_name_replaces emptyRegistry tfParser tfParser2 "Terraform"
      rfl rfl rfl).1 rfl,
    (reregister_same_name_replaces emptyRegistry tfParser tfParser2 "Terraform"
      rfl rfl rfl).2.1,
    (reregister_same_name_replaces emptyRegistry tfParser tfParser2 "Terraform"
      rfl rfl rfl).2.2⟩

/-- Claim C10: an object satisfying both the parser shape (`parse` and
`validate` present) and the generator shape (`generate` and `format`
present) is registered by `registerPlugin` only as a parser: afterwards
parser lookup for its language name resolves to it while the generator
side of the registry is untouched — the generator capability is silently
ignored. -/
theorem registerPlugin_dual_capability_parser_only (st : PluginRegistry)
    (p : PluginObj) (q q2 : String)
    (hpshape : isParserPluginB p = true) (hgshape : isGeneratorPluginB p = true)
    (hvalid : validateParserPlugin p = none) :
    registerPlugin st p = registerParser st p
    ∧ (jsLower q = atomNameLower p.languageName →
        getParser (registerPlugin st p).1 q = some p)
    ∧ (registerPlugin st p).1.generators = st.generators
    ∧ getGenerator (registerPlugin st p).1 q2 = getGenerator st q2 := by
  have hbranch : registerPlugin st p = registerParser st p := by
    simp [registerPlugin, hpshape]
  refine ⟨hbranch, ?_, ?_, ?_⟩
  · intro hq
    simp [hbranch, registerParser, hvalid, getParser, hq, assocGet_assocSet_self]
  · simp [hbranch, registerParser, hvalid]
  · simp [hbranch, registerParser, hvalid, getGenerator]

/-- A dual-capability plugin object: parser and generator shaped. -/
def dualPlugin : PluginObj :=
  { languageName := .str "Bicep", fileExtensions := .arr [".bicep"],
    fileExtension := .str ".bicep",
    parse := .func "bicepParse", validate := .func "bicepValidate",
    generate := .func "bicepGenerate", format := .func "bicepFormat" }

/-- Witness for C10 on `dualPlugin`. -/
theorem registerPlugin_dual_capability_parser_only_witness :
    isParserPluginB dualPlugin = true ∧ isGeneratorPluginB dualPlugin = true
    ∧ validateParserPlugin dualPlugin = none
    ∧ jsLower "BICEP" = atomNameLower dualPlugin.languageName
    ∧ (registerPlugin emptyRegistry dualPlugin = registerParser emptyRegistry dualPlugin
      ∧ getParser (registerPlugin emptyRegistry dualPlugin).1 "BICEP" = some dualPlugin
      ∧ (registerPlugin emptyRegistry dualPlugin).1.generators = emptyRegistry.generators
      ∧ getGenerator (registerPlugin emptyRegistry dualPlugin).1 "BICEP"
          = getGenerator emptyRegistry "BICEP") :=
  ⟨rfl, rfl, rfl, rfl,
    (registerPlugin_dual_capability_parser_only emptyRegistry dualPlugin "BICEP" "BICEP"
      rfl rfl rfl).1,
    (registerPlugin_dual_capability_parser_only emptyRegistry dualPlugin "BICEP" "BICEP"
      rfl rfl rfl).2.1 rfl,
    (registerPlugin_dual_capability_parser_only emptyRegistry dualPlugin "BICEP" "BICEP"
      rfl rfl rfl).2.2.1,
    (registerPlugin_dual_capability_parser_only emptyRegistry dualPlugin "BICEP" "BICEP"
      rfl rfl rfl).2.2.2⟩

/-! ### Frame effect of the shallow copy -/

/-- Caller's heap for the C9 scenario: the input property object at address
0 holds a nested sub-map at address 1. -/
def c9Heap : Heap :=
  [(0, [("config", HVal.ref 1)]),
   (1, [("size", HVal.str "big"), ("keep", HVal.str "y")])]

/-- The registered mapping of the C9 scenario: one rule whose `sourcePath`
has two dot-separated segments. -/
def c9Mapping : HResourceTypeMapping :=
  { propertyMappings := [{ sourcePath := "config.size", targetPath := "Size" }],
    transformations := [] }

/-- The run of `mapProperties` on the C9 scenario (input at address 0,
allocator starting at 2). -/
def c9Run : Heap × Nat × Nat := mapPropertiesHeap c9Mapping c9Heap 0 2

/-- Claim C9: `mapProperties` copies only the top level of the input
property map; with a rule whose `sourcePath` is the two-segment
`config.size` and an input holding a value there, the call mutates the
caller's input object — the nested sub-map at address 1, shared between
the input and the result by the shallow copy, loses the `size` key deleted
at the source path, while the moved value shows up under `Size` on the
result. -/
theorem mapProperties_shallow_copy_mutates_input :
    (jsSplitDot "config.size").length = 2
    ∧ heapGetNested c9Heap (HVal.ref 0) ["config", "size"] = some (HVal.str "big")
    ∧ heapGetNested c9Run.1 (HVal.ref 0) ["config", "size"] = none
    ∧ assocGet (heapFields c9Run.1 0) "config" = some (HVal.ref 1)
    ∧ assocGet (heapFields c9Run.1 c9Run.2.1) "config" = some (HVal.ref 1)
    ∧ assocGet (heapFields c9Run.1 1) "size" = none
    ∧ heapGetNested c9Run.1 (HVal.ref c9Run.2.1) ["Size"] = some (HVal.str "big") :=
  ⟨rfl, rfl, rfl, rfl, rfl, rfl, rfl⟩

/-! ### Claim about the translation engine -/

end IaC






